import Mathlib

/-!
Verification of the `dicom-scrubber` repository (src/scrub_dicoms.py and
src/check_dicoms.py) against its natural-language specification.

The Python programs are shallowly embedded: a pydicom `Dataset` becomes an
association list from tags (pairs of naturals) to elements (a value
representation string plus a dynamically typed value); the filesystem becomes
an association list from path strings to records; `print` side effects become
explicitly returned message lists; exceptions become `Except`.
-/

/-- A DICOM tag locator: two 16-bit components, e.g. (0x0010, 0x0010). -/
abbrev Tag := Nat × Nat

/-- A dynamically typed Python value as stored in a DICOM element.
Python floats only ever appear here as literals that are compared
structurally (the programs do no float arithmetic), so they are carried as
rationals; `DValue.none` is Python's `None`. -/
inductive DValue where
  | str : String → DValue
  | int : Int → DValue
  | float : Rat → DValue
  | bytes : List Nat → DValue
  | none : DValue
  deriving DecidableEq

/-- One data element of a DICOM header: its value representation (VR) code
and its value.  pydicom keeps the VR fixed when `.value` is assigned. -/
structure Element where
  VR : String
  value : DValue
  deriving DecidableEq

/-- A decoded DICOM header: tagged elements, keyed by tag locator.
pydicom's `Dataset` is a dictionary, so tags are unique in practice; the
embedding does not rely on uniqueness. -/
abbrev Record := List (Tag × Element)

/-- `(x, y) in dicom_data` / `dicom_data[(x, y)]`: first element with the tag. -/
def lookupTag (r : Record) (t : Tag) : Option Element :=
  match r with
  | [] => Option.none
  | p :: ps => if p.1 = t then some p.2 else lookupTag ps t

/-- Membership test `(x, y) in dicom_data`. -/
def memTag (r : Record) (t : Tag) : Bool :=
  (lookupTag r t).isSome

/-- Pointwise form of `dicom_data[(x, y)].value = v`. -/
def setF (t : Tag) (v : DValue) : Tag × Element → Tag × Element
  | (a, el) => if a = t then (a, ⟨el.VR, v⟩) else (a, el)

/-- `dicom_data[(x, y)].value = v`: overwrite the value of the element(s)
with tag `t`, keeping the VR. -/
def setValue (r : Record) (t : Tag) (v : DValue) : Record :=
  r.map (setF t v)

/-- String VRs of scrub_dicoms.py line 27 (note: `DA` is absent). -/
def stringVRs : List String := ["LO", "SH", "PN", "LT", "ST", "UT", "TM", "DT", "CS", "UI"]

/-- Integer VRs of scrub_dicoms.py line 30. -/
def intVRs : List String := ["IS", "SL", "SS", "UL", "US"]

/-- Decimal VRs of scrub_dicoms.py line 33. -/
def decimalVRs : List String := ["DS", "FD", "FL"]

/-- Other-byte VRs of scrub_dicoms.py line 36. -/
def byteVRs : List String := ["OB", "OW", "UN"]

/-- `bytes(s, 'utf-8')` for an ASCII string: one byte per character, equal to
the character's code point (every string this program encodes is ASCII). -/
def pyBytesUTF8 (s : String) : List Nat := s.data.map (fun c => c.toNat)

/-- `bytes('REDACTED', 'utf-8')`: the UTF-8 code units of "REDACTED". -/
def redactedBytes : List Nat := pyBytesUTF8 "REDACTED"

/-- `vr_scrub(tag, vr)` from src/scrub_dicoms.py lines 12-43.  Returns the
replacement value together with the list of console messages printed; an
unrecognized VR falls off the end of the `if` chain, printing a report and
returning Python's `None`. -/
def vr_scrub (tag : String) (vr : String) : DValue × List String :=
  if vr ∈ stringVRs then (.str "REDACTED", [])
  else if vr ∈ intVRs then (.int 0, [])
  else if vr ∈ decimalVRs then (.float 0, [])
  else if vr ∈ byteVRs then (.bytes redactedBytes, [])
  else if vr = "DA" then (.str "00010101", [])
  else (.none, ["The tag " ++ tag ++ " has VR " ++ vr ++ ", which is not handled by this function."])

/-- Python `s.split(sep)` helper: split a character list on a separator,
keeping empty pieces, accumulating the current piece in reverse. -/
def pySplitAux (sep : Char) : List Char → List Char → List (List Char)
  | [], acc => [acc.reverse]
  | c :: cs, acc =>
    if c = sep then acc.reverse :: pySplitAux sep cs []
    else pySplitAux sep cs (c :: acc)

/-- Python `s.split(sep)` for a single-character separator. -/
def pySplit (s : String) (sep : Char) : List String :=
  (pySplitAux sep s.data []).map (fun l => ⟨l⟩)

/-- Value of one hexadecimal digit (`int(c, base=16)` on a single char). -/
def hexDigitVal (c : Char) : Nat :=
  if c.isDigit then c.toNat - 48
  else if 'a' ≤ c ∧ c ≤ 'f' then c.toNat - 87
  else if 'A' ≤ c ∧ c ≤ 'F' then c.toNat - 55
  else 0

/-- `int(val, base=16)` on the well-formed hex strings of a configuration. -/
def parseHex (s : String) : Nat :=
  s.data.foldl (fun a c => 16 * a + hexDigitVal c) 0

/-- `map(lambda val: int(val, base=16), field_tag.split(","))` : a tag string
such as "0010,0010" becomes the tag (16, 16).  A malformed tag string (which
would raise in Python and is excluded by the configuration contract) parses
to (0, 0). -/
def parseTag (s : String) : Tag :=
  match pySplit s ',' with
  | [a, b] => (parseHex a, parseHex b)
  | _ => (0, 0)

/-- One iteration of the scrub loop (src/scrub_dicoms.py lines 92-100) for a
configuration entry `(field_tag, field_name)`: if the tag is present, its
value is overwritten with `vr_scrub(field_name, VR)`. -/
def scrubStep (r : Record) (e : String × String) : Record :=
  match lookupTag r (parseTag e.1) with
  | Option.none => r
  | some el => setValue r (parseTag e.1) (vr_scrub e.2 el.VR).1

/-- Console messages printed by one iteration of the scrub loop. -/
def scrubMsg (r : Record) (e : String × String) : List String :=
  match lookupTag r (parseTag e.1) with
  | Option.none => []
  | some el => (vr_scrub e.2 el.VR).2

/-- The whole scrub loop over the configured fields (record part). -/
def scrubFields (config : List (String × String)) (r : Record) : Record :=
  config.foldl scrubStep r

/-- The whole scrub loop, also accumulating the printed messages. -/
def scrubFieldsM (config : List (String × String)) (r : Record) : Record × List String :=
  config.foldl (fun acc e => (scrubStep acc.1 e, acc.2 ++ scrubMsg acc.1 e)) (r, [])

/-- Tag of the PatientID keyword, (0x0010, 0x0020). -/
def PatientIDTag : Tag := (16, 32)

/-- `dicom_data.PatientID = subject_id`: overwrite the value if the element
exists, else create it with the dictionary VR "LO". -/
def setPatientID (r : Record) (s : String) : Record :=
  if memTag r PatientIDTag then setValue r PatientIDTag (.str s)
  else r ++ [(PatientIDTag, Element.mk "LO" (DValue.str s))]

/-- `if subject_id: dicom_data.PatientID = subject_id` (lines 103-104):
Python truthiness makes both `None` and the empty string skip the write. -/
def applySubjectId (r : Record) (sid : Option String) : Record :=
  match sid with
  | Option.none => r
  | some s => if s = "" then r else setPatientID r s

/-- The complete in-memory header mutation of one file: the configured-field
scrub loop followed by the optional subject-identifier override. -/
def scrubRecord (config : List (String × String)) (sid : Option String) (r : Record) : Record :=
  applySubjectId (scrubFields config r) sid

/-- `dicom_file.split('/')[-1]` (src/scrub_dicoms.py line 88). -/
def basenameOf (s : String) : String :=
  (pySplit s '/').getLastD ""

/-- Whether `needle` is a prefix of `haystack` (Bool-valued, executable). -/
def startsWithL : List Char → List Char → Bool
  | [], _ => true
  | _ :: _, [] => false
  | n :: ns, h :: hs => n == h && startsWithL ns hs

/-- Python `s.replace(old, new)` engine: leftmost, non-overlapping, every
occurrence.  Structural recursion on a fuel argument (one unit per consumed
character) keeps the definition kernel-computable; the fuel never runs out
for the call below. -/
def pyReplaceAux (needle repl : List Char) : Nat → List Char → List Char
  | _, [] => []
  | 0, l => l
  | fuel + 1, c :: cs =>
    if startsWithL needle (c :: cs) then
      repl ++ pyReplaceAux needle repl fuel ((c :: cs).drop needle.length)
    else c :: pyReplaceAux needle repl fuel cs

/-- Python `s.replace(old, new)`: replaces every occurrence of `old` in `s`
(the program only ever calls it with a non-empty `old`). -/
def pyReplace (s old new : String) : String :=
  ⟨pyReplaceAux old.data new.data (s.data.length + 1) s.data⟩

/-- Python `s.rfind(c)`: index of the last occurrence of `c`, -1 if absent. -/
def pyRfindAux (c : Char) : List Char → Nat → Int → Int
  | [], _, acc => acc
  | x :: xs, i, acc => pyRfindAux c xs (i + 1) (if x = c then (i : Int) else acc)

/-- Python `s.rfind(c)`. -/
def pyRfind (s : String) (c : Char) : Int :=
  pyRfindAux c s.data 0 (-1)

/-- Character of `s` at position `i` (total; the call sites stay in range). -/
def charAt (s : String) (i : Nat) : Char :=
  s.data.getD i ' '

/-- `os.path.splitext` (posixpath): split off the extension at the last dot,
provided that dot lies after the last path separator and the basename does
not consist solely of leading dots up to it. -/
def splitext (p : String) : String × String :=
  let sepIndex := pyRfind p '/'
  let dotIndex := pyRfind p '.'
  if sepIndex < dotIndex then
    if (List.range p.data.length).any
        (fun i => decide (sepIndex < (i : Int)) && decide ((i : Int) < dotIndex)
          && decide (charAt p i ≠ '.')) then
      (⟨p.data.take dotIndex.toNat⟩, ⟨p.data.drop dotIndex.toNat⟩)
    else (p, "")
  else (p, "")

/-- The filesystem, as the scripts see it: an association list from path
string (exactly as the program spells it, i.e. relative paths stay relative)
to file content.  `os.path.exists` is key membership. -/
abbrev FS := List (String × Record)

/-- `os.path.exists(p)` over the modelled filesystem. -/
def fsExists (fs : FS) (p : String) : Bool :=
  fs.any (fun e => e.1 == p)

/-- Remove every entry at path `p`. -/
def fsErase (fs : FS) (p : String) : FS :=
  fs.filter (fun e => !(e.1 == p))

/-- Write content `c` at path `p`, overwriting any existing file there. -/
def fsWrite (fs : FS) (p : String) (c : Record) : FS :=
  fsErase fs p ++ [(p, c)]

/-- `os.rename(old, new)`: move the content at `old` to `new`, silently
replacing any file already at `new` (POSIX semantics).  The pipeline only
renames a path it has just written, so the missing-source branch (which
would raise in Python) is never taken. -/
def fsRename (fs : FS) (o n : String) : FS :=
  match fs.lookup o with
  | some c => fsWrite (fsErase fs o) n c
  | Option.none => fs

/-- `avoid_duplicates(path, counter)` from src/scrub_dicoms.py lines 45-70,
over the modelled filesystem.  When `counter == 0` and the path is unused it
is returned; otherwise the candidate `stem_counter + ext` is probed, and when
that candidate is also in use the source recurses through the names
`unique_filename` and `file_path`, neither of which is defined anywhere, so
Python raises `NameError` at that point — modelled by the error branch. -/
def avoid_duplicates (fs : FS) (path : String) (counter : Nat) : Except String String :=
  if counter = 0 ∧ fsExists fs path = false then Except.ok path
  else
    let new_path := (splitext path).1 ++ "_" ++ toString counter ++ (splitext path).2
    if fsExists fs new_path then
      Except.error "NameError: name unique_filename is not defined"
    else Except.ok new_path

/-- Python `str(v)` as far as this program exercises it. -/
def pyStr : DValue → String
  | .str s => s
  | .int n => toString n
  | .float q => toString q
  | .bytes _ => "bytes"
  | .none => "None"

/-- `dicom_data.get(keyword, default)` rendered as a string: the element's
value if the tag is present, the default otherwise (the program immediately
uses all three results in string concatenation / `str(...)`). -/
def recordGetStr (r : Record) (t : Tag) (dflt : String) : String :=
  match lookupTag r t with
  | some el => pyStr el.value
  | Option.none => dflt

/-- Tag of the Modality keyword, (0x0008, 0x0060). -/
def ModalityTag : Tag := (8, 96)

/-- Tag of the SeriesInstanceUID keyword, (0x0020, 0x000E). -/
def SeriesInstanceUIDTag : Tag := (32, 14)

/-- Tag of the InstanceNumber keyword, (0x0020, 0x0013). -/
def InstanceNumberTag : Tag := (32, 19)

/-- Tag of the PatientName keyword, (0x0010, 0x0010). -/
def PatientNameTag : Tag := (16, 16)

/-- The metadata-derived base filename of src/scrub_dicoms.py line 89,
computed from the record as read (before any scrubbing). -/
def deriveBaseName (r : Record) : String :=
  recordGetStr r ModalityTag "NA" ++ "." ++ recordGetStr r SeriesInstanceUIDTag "NA"
    ++ "." ++ recordGetStr r InstanceNumberTag "0" ++ ".dcm"

/-- Result of processing one file in the scrub pipeline: the in-memory
record after mutation, the filesystem after save/rename, and the console
messages printed. -/
structure ScrubOutcome where
  record : Record
  fs : FS
  messages : List String
  deriving DecidableEq

/-- `remove_identifiers_from_dicom(dicom_file, subject_id)` from
src/scrub_dicoms.py lines 72-111.  `r` is the decoded content of
`dicom_file`; `saveOk` says whether `save_as(..., write_like_original=False)`
succeeds for the scrubbed record (pydicom raises `ValueError` on records
missing mandatory structural fields, before writing any bytes — the only
exception the source catches).  An uncaught exception (the `NameError` from
`avoid_duplicates`) is the error case. -/
def remove_identifiers_from_dicom (config : List (String × String)) (fs : FS)
    (dicom_file : String) (r : Record) (subject_id : Option String)
    (saveOk : Bool) : Except String ScrubOutcome :=
  let filename := basenameOf dicom_file
  match avoid_duplicates fs (deriveBaseName r) 0 with
  | Except.error e => Except.error e
  | Except.ok new_filename =>
    let scrubbed := scrubFieldsM config r
    let final := applySubjectId scrubbed.1 subject_id
    if saveOk then
      Except.ok ⟨final,
        fsRename (fsWrite fs dicom_file final) dicom_file
          (pyReplace dicom_file filename new_filename),
        scrubbed.2⟩
    else
      Except.ok ⟨final, fs,
        scrubbed.2 ++ ["DICOM file: " ++ dicom_file ++ " missing key fields for saving."]⟩

/-- Extract the success payload of a scrub step (junk on error; every use
first establishes success). -/
def exceptOut (x : Except String ScrubOutcome) : ScrubOutcome :=
  match x with
  | Except.ok o => o
  | Except.error _ => ⟨[], [], []⟩

/-- Whether a scrub step completed without an uncaught exception. -/
def scrubOk (x : Except String ScrubOutcome) : Bool :=
  match x with
  | Except.ok _ => true
  | Except.error _ => false

/-- One file's contribution to the inventory dictionary
(src/check_dicoms.py lines 36-42): for each configured `(field_name,
field_tag)` pair whose tag is present in the record, add the element's value
to the set stored under `field_name`. -/
def fileAdd (config : List (String × String)) (d : String → Finset DValue)
    (r : Record) : String → Finset DValue :=
  config.foldl (fun acc e =>
    match lookupTag r (parseTag e.2) with
    | some el => fun n => if n = e.1 then insert el.value (acc n) else acc n
    | Option.none => acc) d

/-- The inventory accumulator over a list of decoded files: every configured
field name starts at the empty set (`dicom_output_dict[field_name] = set()`)
and each file's observed values are added in walk order. -/
def check_accumulate (config : List (String × String)) (files : List Record) :
    String → Finset DValue :=
  files.foldl (fileAdd config) (fun _ => ∅)

/-- The set of values a single record contributes to field name `n`: the
union, over configuration entries for `n` whose tag is present, of the
stored value. -/
def fileContrib : List (String × String) → Record → String → Finset DValue
  | [], _, _ => ∅
  | e :: c, r, n =>
    (if e.1 = n then
      match lookupTag r (parseTag e.2) with
      | some el => {el.value}
      | Option.none => (∅ : Finset DValue)
    else ∅) ∪ fileContrib c r n

/-- The walk of `check_dicoms` (src/check_dicoms.py lines 27-42) over the
matching files of the tree, each given as its decode result (`dcm.dcmread`
there is called without `force=True` and without any try/except, so a decode
failure propagates).  Returns the file count and the inventory dictionary,
or the uncaught exception. -/
def check_dicoms (config : List (String × String)) :
    List (Except String Record) → Nat → (String → Finset DValue) →
    Except String (Nat × (String → Finset DValue))
  | [], n, d => Except.ok (n, d)
  | f :: fs, n, d =>
    match f with
    | Except.error e => Except.error e
    | Except.ok r => check_dicoms config fs (n + 1) (fileAdd config d r)


/-- The VR stored under tag `t` ("" if the tag is absent); the scrub loop
never changes it. -/
def vrAt (r : Record) (t : Tag) : String :=
  match lookupTag r t with
  | some el => el.VR
  | Option.none => ""

/-- Pointwise effect of one scrub-loop iteration, with the VR read through a
tag-indexed VR table `V`. -/
def hitF (e : String × String) (V : Tag → String) : Tag × Element → Tag × Element
  | (a, el) =>
    if a = parseTag e.1 then (a, ⟨el.VR, (vr_scrub e.2 (V a)).1⟩) else (a, el)

/-- The last entry of the configuration whose tag string parses to `t` (the
loop applies entries in order, so the last matching entry wins). -/
def lastHit : List (String × String) → Tag → Option (String × String)
  | [], _ => Option.none
  | e :: c, t =>
    match lastHit c t with
    | some x => some x
    | Option.none => if parseTag e.1 = t then some e else Option.none

/-- Pointwise effect of the whole scrub loop on one element, as a function
of the configuration and the record's VR table. -/
def scrubValF (c : List (String × String)) (V : Tag → String) :
    Tag × Element → Tag × Element
  | (a, el) =>
    match lastHit c a with
    | Option.none => (a, el)
    | some e => (a, ⟨el.VR, (vr_scrub e.2 (V a)).1⟩)

/-- Scenario record of spec section 8: a file with PatientName "Jane Doe"
(VR person-name) and the metadata Modality "CT", SeriesInstanceUID "1.2.3",
InstanceNumber 4, so the derived base filename is "CT.1.2.3.4.dcm". -/
def janeRecord : Record :=
  [(ModalityTag, ⟨"CS", .str "CT"⟩),
   (SeriesInstanceUIDTag, ⟨"UI", .str "1.2.3"⟩),
   (InstanceNumberTag, ⟨"IS", .int 4⟩),
   (PatientNameTag, ⟨"PN", .str "Jane Doe"⟩)]

/-- The scenario configuration of the scrub pipeline (tag-to-name
orientation, as iterated by src/scrub_dicoms.py line 92). -/
def janeConfig : List (String × String) := [("0010,0010", "PatientName")]

/-- The same field in the inventory pipeline orientation (name to tag, as
iterated by src/check_dicoms.py line 36). -/
def checkConfig : List (String × String) := [("PatientName", "0010,0010")]

/-- A second patient record whose file the C10 scenario destroys. -/
def otherRecord : Record := [(PatientNameTag, ⟨"PN", .str "Someone Else"⟩)]

/-- C10 filesystem: the processed file and a neighbour in the same directory
that already carries the derived name; the current working directory is
elsewhere, so the bare derived name is unused. -/
def fsC10 : FS := [("dir/a.dcm", janeRecord), ("dir/CT.1.2.3.4.dcm", otherRecord)]

/-! ### Structural lemmas about records and the scrub loop -/

theorem setF_fst (t : Tag) (v : DValue) (p : Tag × Element) : (setF t v p).1 = p.1 := by
  obtain ⟨a, el⟩ := p
  simp only [setF]
  split <;> rfl

theorem setF_VR (t : Tag) (v : DValue) (p : Tag × Element) : (setF t v p).2.VR = p.2.VR := by
  obtain ⟨a, el⟩ := p
  simp only [setF]
  split <;> rfl

theorem lookupTag_map (f : Tag × Element → Tag × Element) (hf : ∀ p, (f p).1 = p.1)
    (r : Record) (t : Tag) :
    lookupTag (r.map f) t = (lookupTag r t).map (fun el => (f (t, el)).2) := by
  induction r with
  | nil => rfl
  | cons p ps ih =>
    simp only [List.map_cons, lookupTag, hf p]
    by_cases h : p.1 = t
    · obtain ⟨a, b⟩ := p
      simp only at h
      subst h
      simp
    · simp [h, ih]

theorem lookupTag_append (a b : Record) (t : Tag) :
    lookupTag (a ++ b) t =
      match lookupTag a t with
      | some x => some x
      | Option.none => lookupTag b t := by
  induction a with
  | nil => rfl
  | cons p ps ih =>
    simp only [List.cons_append, lookupTag]
    by_cases h : p.1 = t <;> simp [h, ih]

theorem lookupTag_isSome_of_mem (r : Record) (p : Tag × Element) (h : p ∈ r) :
    (lookupTag r p.1).isSome = true := by
  induction r with
  | nil => cases h
  | cons q qs ih =>
    rcases List.mem_cons.mp h with h1 | h2
    · subst h1
      simp [lookupTag]
    · simp only [lookupTag]
      by_cases hq : q.1 = p.1 <;> simp [hq, ih h2]

theorem lookupTag_none_not_mem (r : Record) (t : Tag) (h : lookupTag r t = Option.none) :
    ∀ p ∈ r, p.1 ≠ t := by
  induction r with
  | nil => intro p hp; cases hp
  | cons q qs ih =>
    intro p hp
    simp only [lookupTag] at h
    by_cases hq : q.1 = t
    · simp [hq] at h
    · rcases List.mem_cons.mp hp with h1 | h2
      · subst h1; exact hq
      · exact ih (by simpa [hq] using h) p h2

theorem vrAt_map (f : Tag × Element → Tag × Element) (hf1 : ∀ p, (f p).1 = p.1)
    (hf2 : ∀ p, (f p).2.VR = p.2.VR) (r : Record) (t : Tag) :
    vrAt (r.map f) t = vrAt r t := by
  unfold vrAt
  rw [lookupTag_map f hf1]
  cases lookupTag r t with
  | none => rfl
  | some el => exact hf2 (t, el)

theorem memTag_map (f : Tag × Element → Tag × Element) (hf : ∀ p, (f p).1 = p.1)
    (r : Record) (t : Tag) :
    memTag (r.map f) t = memTag r t := by
  unfold memTag
  rw [lookupTag_map f hf]
  cases lookupTag r t <;> rfl

theorem hitF_fst (e : String × String) (V : Tag → String) (p : Tag × Element) :
    (hitF e V p).1 = p.1 := by
  obtain ⟨a, el⟩ := p
  simp only [hitF]
  split <;> rfl

theorem hitF_VR (e : String × String) (V : Tag → String) (p : Tag × Element) :
    (hitF e V p).2.VR = p.2.VR := by
  obtain ⟨a, el⟩ := p
  simp only [hitF]
  split <;> rfl

theorem scrubStep_eq (r : Record) (e : String × String) :
    scrubStep r e = r.map (hitF e (vrAt r)) := by
  unfold scrubStep
  cases h : lookupTag r (parseTag e.1) with
  | none =>
    have hmem : ∀ p ∈ r, hitF e (vrAt r) p = p := by
      intro p hp
      obtain ⟨a, el⟩ := p
      simp only [hitF]
      rw [if_neg (lookupTag_none_not_mem r _ h (a, el) hp)]
    show r = r.map (hitF e (vrAt r))
    conv_lhs => rw [← List.map_id r]
    exact List.map_congr_left fun p hp => ((hmem p hp).symm)
  | some el =>
    show setValue r (parseTag e.1) (vr_scrub e.2 el.VR).1 = r.map (hitF e (vrAt r))
    unfold setValue
    refine List.map_congr_left fun p _ => ?_
    obtain ⟨a, b⟩ := p
    simp only [setF, hitF]
    by_cases hp : a = parseTag e.1
    · rw [if_pos hp, if_pos hp, hp]
      unfold vrAt
      rw [h]
    · rw [if_neg hp, if_neg hp]

theorem scrubValF_fst (c : List (String × String)) (V : Tag → String) (p : Tag × Element) :
    (scrubValF c V p).1 = p.1 := by
  obtain ⟨a, el⟩ := p
  simp only [scrubValF]
  cases lastHit c a <;> rfl

theorem scrubValF_VR (c : List (String × String)) (V : Tag → String) (p : Tag × Element) :
    (scrubValF c V p).2.VR = p.2.VR := by
  obtain ⟨a, el⟩ := p
  simp only [scrubValF]
  cases lastHit c a <;> rfl

theorem scrubValF_hitF (c : List (String × String)) (e : String × String)
    (V : Tag → String) (p : Tag × Element) :
    scrubValF c V (hitF e V p) = scrubValF (e :: c) V p := by
  obtain ⟨a, el⟩ := p
  by_cases hp : a = parseTag e.1
  · cases hl : lastHit c a with
    | none =>
      simp only [hitF, if_pos hp, scrubValF, lastHit, hl, if_pos hp.symm]
    | some x =>
      simp only [hitF, if_pos hp, scrubValF, lastHit, hl]
  · cases hl : lastHit c a with
    | none =>
      simp only [hitF, if_neg hp, scrubValF, lastHit, hl, if_neg (Ne.symm hp)]
    | some x =>
      simp only [hitF, if_neg hp, scrubValF, lastHit, hl]

theorem scrubValF_idem (c : List (String × String)) (V : Tag → String) (p : Tag × Element) :
    scrubValF c V (scrubValF c V p) = scrubValF c V p := by
  obtain ⟨a, el⟩ := p
  cases hl : lastHit c a with
  | none => simp only [scrubValF, hl]
  | some e => simp only [scrubValF, hl]

theorem vrAt_scrubStep (r : Record) (e : String × String) (t : Tag) :
    vrAt (scrubStep r e) t = vrAt r t := by
  rw [scrubStep_eq]
  exact vrAt_map _ (hitF_fst e (vrAt r)) (hitF_VR e (vrAt r)) r t

/-- The scrub loop, characterised pointwise: every element keeps its tag and
VR, and its value becomes the redaction dictated by the last configuration
entry matching its tag (or stays put when no entry matches). -/
theorem scrubFields_eq (c : List (String × String)) (r : Record) :
    scrubFields c r = r.map (scrubValF c (vrAt r)) := by
  induction c generalizing r with
  | nil =>
    have h : ∀ p ∈ r, scrubValF [] (vrAt r) p = p := by
      intro p _
      obtain ⟨a, el⟩ := p
      simp only [scrubValF, lastHit]
    show r = r.map (scrubValF [] (vrAt r))
    conv_lhs => rw [← List.map_id r]
    exact List.map_congr_left fun p hp => (h p hp).symm
  | cons e c ih =>
    show scrubFields c (scrubStep r e) = r.map (scrubValF (e :: c) (vrAt r))
    rw [ih (scrubStep r e)]
    have hV : vrAt (scrubStep r e) = vrAt r := funext (vrAt_scrubStep r e)
    rw [hV, scrubStep_eq, List.map_map]
    exact List.map_congr_left fun p _ => scrubValF_hitF c e (vrAt r) p

theorem vrAt_scrubFields (c : List (String × String)) (r : Record) (t : Tag) :
    vrAt (scrubFields c r) t = vrAt r t := by
  rw [scrubFields_eq]
  exact vrAt_map _ (scrubValF_fst c (vrAt r)) (scrubValF_VR c (vrAt r)) r t

theorem memTag_scrubFields (c : List (String × String)) (r : Record) (t : Tag) :
    memTag (scrubFields c r) t = memTag r t := by
  rw [scrubFields_eq]
  exact memTag_map _ (scrubValF_fst c (vrAt r)) r t

/-- Re-running the configured-field scrub loop changes nothing. -/
theorem scrubFields_idem (c : List (String × String)) (r : Record) :
    scrubFields c (scrubFields c r) = scrubFields c r := by
  rw [scrubFields_eq c (scrubFields c r), funext (vrAt_scrubFields c r),
    scrubFields_eq c r, List.map_map]
  exact List.map_congr_left fun p _ => scrubValF_idem c (vrAt r) p

theorem memTag_setValue (r : Record) (t : Tag) (v : DValue) (u : Tag) :
    memTag (setValue r t v) u = memTag r u :=
  memTag_map _ (setF_fst t v) r u

theorem vrAt_setValue (r : Record) (t : Tag) (v : DValue) (u : Tag) :
    vrAt (setValue r t v) u = vrAt r u :=
  vrAt_map _ (setF_fst t v) (setF_VR t v) r u

theorem memTag_append (a b : Record) (t : Tag) :
    memTag (a ++ b) t = (memTag a t || memTag b t) := by
  unfold memTag
  rw [lookupTag_append]
  cases lookupTag a t <;> rfl

theorem vrAt_append_isSome (a b : Record) (t : Tag)
    (h : (lookupTag a t).isSome = true) :
    vrAt (a ++ b) t = vrAt a t := by
  unfold vrAt
  rw [lookupTag_append]
  cases hl : lookupTag a t with
  | none => rw [hl] at h; cases h
  | some el => rfl

theorem memTag_false_none (r : Record) (t : Tag) (h : memTag r t = false) :
    lookupTag r t = Option.none := by
  unfold memTag at h
  cases hl : lookupTag r t with
  | none => rfl
  | some el => rw [hl] at h; cases h

theorem scrubValF_congrV (c : List (String × String)) (V1 V2 : Tag → String)
    (p : Tag × Element) (h : V1 p.1 = V2 p.1) :
    scrubValF c V1 p = scrubValF c V2 p := by
  obtain ⟨a, el⟩ := p
  simp only at h
  cases hl : lastHit c a with
  | none => simp only [scrubValF, hl]
  | some e => simp only [scrubValF, hl, h]

theorem setF_scrub_fix (c : List (String × String)) (V : Tag → String) (pt : Tag)
    (v : DValue) (p : Tag × Element) :
    setF pt v (scrubValF c V (setF pt v (scrubValF c V p))) = setF pt v (scrubValF c V p) := by
  obtain ⟨a, el⟩ := p
  cases hl : lastHit c a with
  | none =>
    by_cases ha : a = pt
    · simp only [scrubValF, hl, setF, if_pos ha]
    · simp only [scrubValF, hl, setF, if_neg ha]
  | some e =>
    by_cases ha : a = pt
    · simp only [scrubValF, hl, setF, if_pos ha]
    · simp only [scrubValF, hl, setF, if_neg ha]

/-- The subject-identifier override commutes with re-scrubbing: writing the
identifier, scrubbing again, and writing it again lands back on the record
obtained after the first write. -/
theorem setPatientID_scrub_fix (c : List (String × String)) (s : String) (r : Record) :
    setPatientID (scrubFields c (setPatientID (scrubFields c r) s)) s
      = setPatientID (scrubFields c r) s := by
  have hVr1 : vrAt (scrubFields c r) = vrAt r := funext (vrAt_scrubFields c r)
  by_cases hm : memTag (scrubFields c r) PatientIDTag = true
  · -- the PatientID element already exists: the override is a value write
    unfold setPatientID
    rw [if_pos hm]
    have hm2 : memTag (setValue (scrubFields c r) PatientIDTag (.str s)) PatientIDTag = true := by
      rw [memTag_setValue]; exact hm
    have hm3 : memTag (scrubFields c (setValue (scrubFields c r) PatientIDTag (.str s)))
        PatientIDTag = true := by
      rw [memTag_scrubFields]; exact hm2
    rw [if_pos hm3]
    have hV2 : vrAt (setValue (scrubFields c r) PatientIDTag (.str s)) = vrAt r :=
      funext fun t => (vrAt_setValue _ _ _ t).trans (vrAt_scrubFields c r t)
    rw [scrubFields_eq c (setValue (scrubFields c r) PatientIDTag (.str s)), hV2,
      scrubFields_eq c r]
    unfold setValue
    simp only [List.map_map]
    refine List.map_congr_left fun p _ => ?_
    simp only [Function.comp]
    exact setF_scrub_fix c (vrAt r) PatientIDTag (.str s) p
  · -- the PatientID element is created by appending a fresh "LO" element
    unfold setPatientID
    rw [if_neg hm]
    have hnone : lookupTag (scrubFields c r) PatientIDTag = Option.none :=
      memTag_false_none _ _ (Bool.not_eq_true _ ▸ hm)
    have hm2 : memTag (scrubFields c r ++ [(PatientIDTag, Element.mk "LO" (DValue.str s))]) PatientIDTag = true := by
      rw [memTag_append]
      cases h : memTag (scrubFields c r) PatientIDTag <;> simp [memTag, lookupTag, h]
    have hm3 : memTag (scrubFields c (scrubFields c r ++ [(PatientIDTag, Element.mk "LO" (DValue.str s))]))
        PatientIDTag = true := by
      rw [memTag_scrubFields]; exact hm2
    rw [if_pos hm3]
    rw [scrubFields_eq c (scrubFields c r ++ [(PatientIDTag, Element.mk "LO" (DValue.str s))])]
    unfold setValue
    simp only [List.map_append, List.map_map]
    have hpart2 :
        List.map (setF PatientIDTag (.str s) ∘
            scrubValF c (vrAt (scrubFields c r ++ [(PatientIDTag, Element.mk "LO" (DValue.str s))])))
          [(PatientIDTag, Element.mk "LO" (DValue.str s))] = [(PatientIDTag, Element.mk "LO" (DValue.str s))] := by
      simp only [List.map_cons, List.map_nil, Function.comp]
      cases hl : lastHit c PatientIDTag with
      | none => simp [scrubValF, hl, setF]
      | some e => simp [scrubValF, hl, setF]
    rw [hpart2]
    have hpart1 :
        List.map (setF PatientIDTag (.str s) ∘
            scrubValF c (vrAt (scrubFields c r ++ [(PatientIDTag, Element.mk "LO" (DValue.str s))])))
          (scrubFields c r) = scrubFields c r := by
      have hstep : ∀ p ∈ scrubFields c r,
          (setF PatientIDTag (.str s) ∘
            scrubValF c (vrAt (scrubFields c r ++ [(PatientIDTag, Element.mk "LO" (DValue.str s))]))) p
            = scrubValF c (vrAt r) p := by
        intro p hp
        have hpne : p.1 ≠ PatientIDTag := lookupTag_none_not_mem _ _ hnone p hp
        have hVp : vrAt (scrubFields c r ++ [(PatientIDTag, Element.mk "LO" (DValue.str s))]) p.1
            = vrAt r p.1 := by
          rw [vrAt_append_isSome _ _ _ (lookupTag_isSome_of_mem _ p hp)]
          exact vrAt_scrubFields c r p.1
        simp only [Function.comp]
        rw [scrubValF_congrV c _ (vrAt r) p hVp]
        obtain ⟨a, el⟩ := p
        simp only at hpne
        cases hl : lastHit c a with
        | none => simp only [scrubValF, hl, setF, if_neg hpne]
        | some e => simp only [scrubValF, hl, setF, if_neg hpne]
      rw [List.map_congr_left hstep]
      have : scrubFields c r = List.map (scrubValF c (vrAt r)) (scrubFields c r) := by
        conv_lhs => rw [← scrubFields_idem c r, scrubFields_eq c (scrubFields c r), hVr1]
      exact this.symm
    rw [hpart1]

/-- C7 core: one full in-memory scrub (field loop plus subject override) is
a fixed point of itself. -/
theorem scrubRecord_idem (config : List (String × String)) (sid : Option String) (r : Record) :
    scrubRecord config sid (scrubRecord config sid r) = scrubRecord config sid r := by
  unfold scrubRecord
  cases sid with
  | none =>
    simp only [applySubjectId]
    exact scrubFields_idem config r
  | some s =>
    by_cases hs : s = ""
    · simp only [applySubjectId, if_pos hs]
      exact scrubFields_idem config r
    · simp only [applySubjectId, if_neg hs]
      exact setPatientID_scrub_fix config s r

theorem scrubFieldsM_fst_aux (c : List (String × String)) :
    ∀ acc : Record × List String,
      (c.foldl (fun acc e => (scrubStep acc.1 e, acc.2 ++ scrubMsg acc.1 e)) acc).1
        = scrubFields c acc.1 := by
  induction c with
  | nil => intro acc; rfl
  | cons e c ih =>
    intro acc
    exact ih (scrubStep acc.1 e, acc.2 ++ scrubMsg acc.1 e)

/-- The record computed by the message-accumulating loop is the record
computed by the plain loop. -/
theorem scrubFieldsM_fst (c : List (String × String)) (r : Record) :
    (scrubFieldsM c r).1 = scrubFields c r :=
  scrubFieldsM_fst_aux c (r, [])

/-- After `dicom_data.PatientID = s`, the PatientID element holds `s`. -/
theorem lookup_value_setPatientID (r : Record) (s : String) :
    (lookupTag (setPatientID r s) PatientIDTag).map (fun el => el.value)
      = some (DValue.str s) := by
  unfold setPatientID
  cases hm : memTag r PatientIDTag with
  | true =>
    rw [if_pos rfl]
    unfold setValue
    rw [lookupTag_map _ (setF_fst PatientIDTag (.str s))]
    unfold memTag at hm
    cases hl : lookupTag r PatientIDTag with
    | none => rw [hl] at hm; cases hm
    | some el => simp [setF]
  | false =>
    rw [if_neg (by simp [hm])]
    rw [lookupTag_append, memTag_false_none r PatientIDTag hm]
    simp [lookupTag]

/-! ### Lemmas about the inventory accumulator -/

theorem fileAdd_eq (config : List (String × String)) :
    ∀ (d : String → Finset DValue) (r : Record) (n : String),
      fileAdd config d r n = d n ∪ fileContrib config r n := by
  induction config with
  | nil =>
    intro d r n
    simp [fileAdd, fileContrib]
  | cons e c ih =>
    intro d r n
    rw [show fileAdd (e :: c) d r =
        fileAdd c (match lookupTag r (parseTag e.2) with
          | some el => fun m => if m = e.1 then insert el.value (d m) else d m
          | Option.none => d) r from rfl]
    cases hl : lookupTag r (parseTag e.2) with
    | none =>
      rw [ih d r n]
      by_cases hn : e.1 = n <;> simp [fileContrib, hl, hn]
    | some el =>
      rw [ih (fun m => if m = e.1 then insert el.value (d m) else d m) r n]
      by_cases hn : e.1 = n
      · rw [if_pos (hn.symm)]
        simp only [fileContrib, if_pos hn, hl]
        apply Finset.ext
        intro x
        simp only [Finset.mem_union, Finset.mem_insert, Finset.mem_singleton]
        tauto
      · rw [if_neg (fun h => hn h.symm)]
        simp [fileContrib, if_neg hn]

theorem mem_fileContrib (r : Record) (n : String) (v : DValue) :
    ∀ c : List (String × String),
      v ∈ fileContrib c r n ↔
        ∃ e ∈ c, e.1 = n ∧
          (lookupTag r (parseTag e.2)).map (fun el => el.value) = some v := by
  intro c
  induction c with
  | nil => simp [fileContrib]
  | cons e c ih =>
    simp only [fileContrib, Finset.mem_union, ih, List.mem_cons]
    constructor
    · rintro (hv | ⟨f, hf, hn, hl⟩)
      · by_cases hn : e.1 = n
        · rw [if_pos hn] at hv
          cases hl : lookupTag r (parseTag e.2) with
          | none => rw [hl] at hv; simp at hv
          | some el =>
            rw [hl] at hv
            simp only [Finset.mem_singleton] at hv
            exact ⟨e, Or.inl rfl, hn, by rw [hl, hv]; rfl⟩
        · rw [if_neg hn] at hv
          simp at hv
      · exact ⟨f, Or.inr hf, hn, hl⟩
    · rintro ⟨f, hf | hf, hn, hl⟩
      · rw [hf] at hn hl
        left
        rw [if_pos hn]
        cases hlk : lookupTag r (parseTag e.2) with
        | none => rw [hlk] at hl; simp at hl
        | some el =>
          rw [hlk] at hl
          simp only [Option.map_some'] at hl
          simp only [Finset.mem_singleton]
          exact (Option.some.inj hl).symm
      · exact Or.inr ⟨f, hf, hn, hl⟩

theorem mem_check_fold (config : List (String × String)) (n : String) (v : DValue) :
    ∀ (files : List Record) (d : String → Finset DValue),
      v ∈ (files.foldl (fileAdd config) d) n ↔
        v ∈ d n ∨ ∃ r ∈ files, v ∈ fileContrib config r n := by
  intro files
  induction files with
  | nil => simp
  | cons r fs ih =>
    intro d
    simp only [List.foldl_cons, ih, fileAdd_eq, Finset.mem_union, List.mem_cons]
    constructor
    · rintro ((h | h) | ⟨q, hq, hv⟩)
      · exact Or.inl h
      · exact Or.inr ⟨r, Or.inl rfl, h⟩
      · exact Or.inr ⟨q, Or.inr hq, hv⟩
    · rintro (h | ⟨q, hq | hq, hv⟩)
      · exact Or.inl (Or.inl h)
      · subst hq; exact Or.inl (Or.inr hv)
      · exact Or.inr ⟨q, hq, hv⟩

theorem fileAdd_comm (config : List (String × String)) (d : String → Finset DValue)
    (r1 r2 : Record) :
    fileAdd config (fileAdd config d r1) r2 = fileAdd config (fileAdd config d r2) r1 := by
  funext n
  rw [fileAdd_eq, fileAdd_eq, fileAdd_eq, fileAdd_eq, Finset.union_right_comm]

theorem check_fold_perm (config : List (String × String)) :
    ∀ {files files' : List Record}, files.Perm files' →
      ∀ d, files.foldl (fileAdd config) d = files'.foldl (fileAdd config) d := by
  intro files files' hp
  induction hp with
  | nil => intro d; rfl
  | cons x _ ih => intro d; exact ih (fileAdd config d x)
  | swap x y l =>
    intro d
    simp only [List.foldl_cons]
    rw [fileAdd_comm]
  | trans _ _ ih1 ih2 => intro d; exact (ih1 d).trans (ih2 d)

/-! ### Claim theorems -/

/-- C1 counterexample: the claim says every textual-family tag, date
included, is redacted to "REDACTED", but `vr_scrub` maps the date VR `DA`
to the fixed literal date string "00010101". -/
theorem C1_counterexample :
    (vr_scrub "StudyDate" "DA").1 ≠ DValue.str "REDACTED" := by decide

/-- C1 (amended): for every supported value-type tag, `vr_scrub` returns the
canonical redacted constant of the documented type family, independent of
the stored value (which it never receives): non-date textual tags map to the
string "REDACTED", the date tag `DA` to the fixed literal date string
"00010101", integer tags to the integer 0, decimal tags to the float 0.0,
and opaque-binary tags to the UTF-8 byte sequence for "REDACTED". -/
theorem C1_policy_families (tag : String) :
    (∀ vr ∈ stringVRs, (vr_scrub tag vr).1 = DValue.str "REDACTED") ∧
    (∀ vr ∈ intVRs, (vr_scrub tag vr).1 = DValue.int 0) ∧
    (∀ vr ∈ decimalVRs, (vr_scrub tag vr).1 = DValue.float 0) ∧
    (∀ vr ∈ byteVRs, (vr_scrub tag vr).1 = DValue.bytes (pyBytesUTF8 "REDACTED")) ∧
    (vr_scrub tag "DA").1 = DValue.str "00010101" := by
  refine ⟨?_, ?_, ?_, ?_, rfl⟩ <;> intro vr h <;> fin_cases h <;> rfl

/-- C1 witness: the amended policy evaluated at one member of each family. -/
theorem C1_policy_families_witness :
    (vr_scrub "PatientName" "PN").1 = DValue.str "REDACTED" ∧
    (vr_scrub "SeriesNumber" "IS").1 = DValue.int 0 ∧
    (vr_scrub "SliceThickness" "DS").1 = DValue.float 0 ∧
    (vr_scrub "PixelData" "OB").1 = DValue.bytes (pyBytesUTF8 "REDACTED") ∧
    (vr_scrub "StudyDate" "DA").1 = DValue.str "00010101" :=
  ⟨(C1_policy_families "PatientName").1 "PN" (by decide),
   (C1_policy_families "SeriesNumber").2.1 "IS" (by decide),
   (C1_policy_families "SliceThickness").2.2.1 "DS" (by decide),
   (C1_policy_families "PixelData").2.2.2.1 "OB" (by decide),
   (C1_policy_families "StudyDate").2.2.2.2⟩

/-- C2 counterexample: for the configured field ("0010,1010", "PatientAge")
with the unrecognized VR `AS`, the scrub loop does not leave the value
unmodified — `vr_scrub` falls through returning None and the loop assigns
that None to the element (src/scrub_dicoms.py line 100). -/
theorem C2_counterexample :
    (lookupTag (scrubFieldsM [("0010,1010", "PatientAge")]
        [((16, 4112), ⟨"AS", DValue.str "045Y"⟩)]).1 (16, 4112)).map (fun el => el.value)
      ≠ some (DValue.str "045Y") := by decide

theorem vr_scrub_unhandled (tag vr : String) (h1 : vr ∉ stringVRs) (h2 : vr ∉ intVRs)
    (h3 : vr ∉ decimalVRs) (h4 : vr ∉ byteVRs) (h5 : vr ≠ "DA") :
    vr_scrub tag vr = (DValue.none,
      ["The tag " ++ tag ++ " has VR " ++ vr ++ ", which is not handled by this function."]) := by
  unfold vr_scrub
  rw [if_neg h1, if_neg h2, if_neg h3, if_neg h4, if_neg h5]

/-- C2 (amended): for every configured field present in a record whose VR is
not recognized by the policy, the loop iteration reports the field name and
the type tag on the console and overwrites the field's value with the
policy's fall-through result None (rather than leaving it unmodified); the
iteration is a total function, so the batch is not aborted. -/
theorem C2_unrecognized_vr (r : Record) (t : Tag) (el : Element) (ts name : String)
    (hl : lookupTag r t = some el) (ht : parseTag ts = t)
    (hvr : el.VR ∉ stringVRs ∧ el.VR ∉ intVRs ∧ el.VR ∉ decimalVRs ∧
      el.VR ∉ byteVRs ∧ el.VR ≠ "DA") :
    scrubStep r (ts, name) = setValue r t DValue.none ∧
    scrubMsg r (ts, name) =
      ["The tag " ++ name ++ " has VR " ++ el.VR ++ ", which is not handled by this function."] := by
  obtain ⟨h1, h2, h3, h4, h5⟩ := hvr
  have hu := vr_scrub_unhandled name el.VR h1 h2 h3 h4 h5
  constructor
  · unfold scrubStep
    rw [ht, hl]
    show setValue r t (vr_scrub name el.VR).1 = setValue r t DValue.none
    rw [hu]
  · unfold scrubMsg
    rw [ht, hl]
    show (vr_scrub name el.VR).2 = _
    rw [hu]

/-- C2 witness: the amended behaviour on a concrete PatientAge element. -/
theorem C2_unrecognized_vr_witness :
    scrubStep [((16, 4112), ⟨"AS", DValue.str "045Y"⟩)] ("0010,1010", "PatientAge")
      = setValue [((16, 4112), ⟨"AS", DValue.str "045Y"⟩)] (16, 4112) DValue.none ∧
    scrubMsg [((16, 4112), ⟨"AS", DValue.str "045Y"⟩)] ("0010,1010", "PatientAge")
      = ["The tag PatientAge has VR AS, which is not handled by this function."] :=
  C2_unrecognized_vr [((16, 4112), ⟨"AS", DValue.str "045Y"⟩)] (16, 4112)
    ⟨"AS", DValue.str "045Y"⟩ "0010,1010" "PatientAge" rfl (by decide)
    ⟨by decide, by decide, by decide, by decide, by decide⟩

/-- C3: the counter probe of `avoid_duplicates` does not terminate with the
first unused candidate once both the base name and its `_0` variant exist
(the third file deriving the same base name): the recursive branch refers to
the undefined names `unique_filename` and `file_path`, so Python raises
NameError, crashing the batch. -/
theorem C3_probe_crash :
    avoid_duplicates [("CT.1.2.3.4.dcm", []), ("CT.1.2.3.4_0.dcm", [])] "CT.1.2.3.4.dcm" 0
      = Except.error "NameError: name unique_filename is not defined" := rfl

/-- C4 counterexample: in the scenario with config {"0010,0010":
"PatientName"} and the derived name already in use, the file is renamed to
the `_0`-suffixed variant (the probe counter starts at 0), not the
`_1`-suffixed variant the claim states. -/
theorem C4_counterexample :
    scrubOk (remove_identifiers_from_dicom janeConfig
        [("a.dcm", janeRecord), ("CT.1.2.3.4.dcm", [])] "a.dcm" janeRecord
        Option.none true) = true ∧
    fsExists (exceptOut (remove_identifiers_from_dicom janeConfig
        [("a.dcm", janeRecord), ("CT.1.2.3.4.dcm", [])] "a.dcm" janeRecord
        Option.none true)).fs "a.dcm" = false ∧
    fsExists (exceptOut (remove_identifiers_from_dicom janeConfig
        [("a.dcm", janeRecord), ("CT.1.2.3.4.dcm", [])] "a.dcm" janeRecord
        Option.none true)).fs "CT.1.2.3.4_1.dcm" = false ∧
    fsExists (exceptOut (remove_identifiers_from_dicom janeConfig
        [("a.dcm", janeRecord), ("CT.1.2.3.4.dcm", [])] "a.dcm" janeRecord
        Option.none true)).fs "CT.1.2.3.4_0.dcm" = true := by
  refine ⟨rfl, by decide, by decide, by decide⟩

/-- C4 (amended): in the scenario, PatientName is scrubbed to "REDACTED" and
the file is renamed to the base name Modality.SeriesUID.InstanceNumber.dcm
derived from the pre-scrub record (third run: the base name still uses the
original Modality "CT" even when the configuration scrubs Modality itself),
or to the `_0`-suffixed variant of that name when the unsuffixed name
already exists. -/
theorem C4_scenario :
    ((lookupTag (exceptOut (remove_identifiers_from_dicom janeConfig
        [("a.dcm", janeRecord)] "a.dcm" janeRecord Option.none true)).record
        PatientNameTag).map (fun el => el.value) = some (DValue.str "REDACTED")) ∧
    (fsExists (exceptOut (remove_identifiers_from_dicom janeConfig
        [("a.dcm", janeRecord)] "a.dcm" janeRecord Option.none true)).fs
        "CT.1.2.3.4.dcm" = true ∧
      fsExists (exceptOut (remove_identifiers_from_dicom janeConfig
        [("a.dcm", janeRecord)] "a.dcm" janeRecord Option.none true)).fs
        "a.dcm" = false) ∧
    (fsExists (exceptOut (remove_identifiers_from_dicom janeConfig
        [("a.dcm", janeRecord), ("CT.1.2.3.4.dcm", [])] "a.dcm" janeRecord
        Option.none true)).fs "CT.1.2.3.4_0.dcm" = true) ∧
    (fsExists (exceptOut (remove_identifiers_from_dicom
        [("0008,0060", "Modality"), ("0010,0010", "PatientName")]
        [("a.dcm", janeRecord)] "a.dcm" janeRecord Option.none true)).fs
        "CT.1.2.3.4.dcm" = true) := by
  refine ⟨by decide, ⟨by decide, by decide⟩, by decide, by decide⟩

theorem getLastD_concat (l : List String) (a d : String) :
    (l ++ [a]).getLastD d = a := by
  induction l with
  | nil => rfl
  | cons x xs ih =>
    cases xs with
    | nil => rfl
    | cons y ys => exact ih

/-- C5: when the persistence step fails (pydicom's ValueError for a record
left without mandatory structural fields), the failure is caught, the last
console message names the offending file path, the filesystem is untouched
(no rename, original location, name and content), and the step returns
normally so the walk continues. -/
theorem C5_persist_failure (config : List (String × String)) (fs : FS)
    (dicom_file : String) (r : Record) (sid : Option String) (nf : String)
    (h : avoid_duplicates fs (deriveBaseName r) 0 = Except.ok nf) :
    (remove_identifiers_from_dicom config fs dicom_file r sid false).map
        (fun out => (out.fs, out.messages.getLastD ""))
      = Except.ok (fs, "DICOM file: " ++ dicom_file ++ " missing key fields for saving.") := by
  unfold remove_identifiers_from_dicom
  rw [h]
  show Except.ok (fs, ((scrubFieldsM config r).2 ++
      ["DICOM file: " ++ dicom_file ++ " missing key fields for saving."]).getLastD "")
    = Except.ok (fs, "DICOM file: " ++ dicom_file ++ " missing key fields for saving.")
  rw [getLastD_concat]

/-- C5 witness: a record with no metadata derives "NA.NA.0.dcm"; on an empty
filesystem the probe succeeds, and the failing save leaves everything as it
was, reporting the path. -/
theorem C5_persist_failure_witness :
    avoid_duplicates [] (deriveBaseName []) 0 = Except.ok "NA.NA.0.dcm" ∧
    (remove_identifiers_from_dicom [] [] "a.dcm" [] Option.none false).map
        (fun out => (out.fs, out.messages.getLastD ""))
      = Except.ok ([], "DICOM file: a.dcm missing key fields for saving.") :=
  ⟨rfl, C5_persist_failure [] [] "a.dcm" [] Option.none "NA.NA.0.dcm" rfl⟩

/-- C6: a non-empty subject identifier is written unconditionally — after
the full in-memory scrub the PatientID element holds exactly the supplied
identifier, whatever the configuration contains; and with the identifier
omitted the override step returns the record unchanged. -/
theorem C6_subject_override (config : List (String × String)) (r : Record) (s : String)
    (hs : s ≠ "") :
    (lookupTag (scrubRecord config (some s) r) PatientIDTag).map (fun el => el.value)
      = some (DValue.str s) ∧
    applySubjectId (scrubFields config r) Option.none = scrubFields config r := by
  constructor
  · show (lookupTag (if s = "" then scrubFields config r
        else setPatientID (scrubFields config r) s) PatientIDTag).map (fun el => el.value)
      = some (DValue.str s)
    rw [if_neg hs]
    exact lookup_value_setPatientID (scrubFields config r) s
  · rfl

/-- C6 witness: SUBJ001 lands in PatientID of the scenario record even
though PatientID is not among the configured fields. -/
theorem C6_subject_override_witness :
    (lookupTag (scrubRecord janeConfig (some "SUBJ001") janeRecord) PatientIDTag).map
        (fun el => el.value) = some (DValue.str "SUBJ001") ∧
    applySubjectId (scrubFields janeConfig janeRecord) Option.none
      = scrubFields janeConfig janeRecord :=
  C6_subject_override janeConfig janeRecord "SUBJ001" (by decide)

/-- C7: the full in-memory header scrub (configured-field loop followed by
the subject-identifier override) is idempotent — re-running it with the same
configuration and the same subject identifier reproduces the record
bit-for-bit. -/
theorem C7_scrub_idempotent (config : List (String × String)) (sid : Option String)
    (r : Record) :
    scrubRecord config sid (scrubRecord config sid r) = scrubRecord config sid r :=
  scrubRecord_idem config sid r

/-- C8: the inventory accumulator's value set for a configured field name is
exactly the union over the walked files of the values stored under that
field's tag where present, and it is invariant under permutations of the
walk order. -/
theorem C8_inventory_union (config : List (String × String)) (files files' : List Record)
    (n : String) (hp : files.Perm files') :
    (∀ v : DValue, v ∈ check_accumulate config files n ↔
      ∃ r ∈ files, ∃ e ∈ config, e.1 = n ∧
        (lookupTag r (parseTag e.2)).map (fun el => el.value) = some v) ∧
    check_accumulate config files n = check_accumulate config files' n := by
  constructor
  · intro v
    unfold check_accumulate
    rw [mem_check_fold]
    simp only [Finset.not_mem_empty, false_or]
    constructor
    · rintro ⟨r, hr, hv⟩
      exact ⟨r, hr, (mem_fileContrib r n v config).mp hv⟩
    · rintro ⟨r, hr, he⟩
      exact ⟨r, hr, (mem_fileContrib r n v config).mpr he⟩
  · unfold check_accumulate
    rw [check_fold_perm config hp]

/-- C8 witness: two files walked in either order yield the same PatientName
value set, and the observed value "Jane Doe" is in it. -/
theorem C8_inventory_union_witness :
    check_accumulate checkConfig [janeRecord, []] "PatientName"
      = check_accumulate checkConfig [[], janeRecord] "PatientName" ∧
    DValue.str "Jane Doe" ∈ check_accumulate checkConfig [janeRecord, []] "PatientName" :=
  ⟨(C8_inventory_union checkConfig [janeRecord, []] [[], janeRecord] "PatientName"
      (List.Perm.swap [] janeRecord [])).2,
   ((C8_inventory_union checkConfig [janeRecord, []] [[], janeRecord] "PatientName"
      (List.Perm.swap [] janeRecord [])).1 (DValue.str "Jane Doe")).mpr
    ⟨janeRecord, by decide, ("PatientName", "0010,0010"), by decide, rfl, by decide⟩⟩

/-- C9 counterexample: one undecodable file aborts the whole inventory walk
— `check_dicoms` calls `dcm.dcmread` without `force=True` and without any
try/except, so the exception propagates instead of the file being reported
and skipped. -/
theorem C9_counterexample :
    check_dicoms checkConfig [Except.error "InvalidDicomError", Except.ok janeRecord] 0
      (fun _ => ∅) = Except.error "InvalidDicomError" := rfl

/-- C9 (amended): a per-file read/decode error in the inventory pipeline is
not caught: it propagates out of the walk immediately, the remaining files
are not processed, and the run does not complete. -/
theorem C9_decode_error_aborts (config : List (String × String)) (e : String)
    (rest : List (Except String Record)) (n : Nat) (d : String → Finset DValue) :
    check_dicoms config (Except.error e :: rest) n d = Except.error e := rfl

/-- C10: the collision probe tests the bare derived name (resolved against
the process working directory), while the rename target is built by
substring-replacing the old basename inside the full path; for a file whose
own directory already holds the derived name, the probe reports the name
free, the rename lands on the occupied sibling path, and that file's
content is silently destroyed (two files collapse to one). -/
theorem C10_probe_rename_mismatch :
    avoid_duplicates fsC10 (deriveBaseName janeRecord) 0 = Except.ok "CT.1.2.3.4.dcm" ∧
    fsExists fsC10 "CT.1.2.3.4.dcm" = false ∧
    fsExists fsC10 "dir/CT.1.2.3.4.dcm" = true ∧
    pyReplace "dir/a.dcm" (basenameOf "dir/a.dcm") "CT.1.2.3.4.dcm"
      = "dir/CT.1.2.3.4.dcm" ∧
    scrubOk (remove_identifiers_from_dicom janeConfig fsC10 "dir/a.dcm" janeRecord
      Option.none true) = true ∧
    (exceptOut (remove_identifiers_from_dicom janeConfig fsC10 "dir/a.dcm" janeRecord
      Option.none true)).fs.length = 1 ∧
    ((exceptOut (remove_identifiers_from_dicom janeConfig fsC10 "dir/a.dcm" janeRecord
      Option.none true)).fs.lookup "dir/CT.1.2.3.4.dcm").isSome = true ∧
    ((exceptOut (remove_identifiers_from_dicom janeConfig fsC10 "dir/a.dcm" janeRecord
      Option.none true)).fs.lookup "dir/CT.1.2.3.4.dcm" ≠ some otherRecord) := by
  refine ⟨rfl, by decide, by decide, by decide, rfl, by decide, by decide, by decide⟩
